import Mathlib

/-!
Shallow embedding of the InventoryLedger of `src/src/App.tsx` (the v2
variant of the app, which the spec's claims cite).

Modelling conventions:
- JS numbers are modelled as rationals `ℚ`.  A JS value that may be
  `undefined` (or non-finite, wherever the code only ever asks
  `Number.isFinite`) is modelled as `Option ℚ`, with `none` standing for
  "absent / non-finite": every code site that reads such a field guards it
  with `x || 0` (modelled by `orZero`) or `Number.isFinite x` (modelled by
  matching on the option).
- A TypeScript `Partial<T>` argument is modelled by a structure whose
  fields are each wrapped in one more `Option` layer: the outer layer is
  "is this key present in the object literal", mirroring JS spread-merge
  semantics where a present key overrides even with value `undefined`.
- The JS `Map` built by `new Map(items.map(i => [i.id, i]))` keeps, for a
  duplicated key, the last entry; `itemLookup` mirrors that.
- React state updates inside one handler compose sequentially
  (functional `setItems` / `setSales` updaters), so each handler is one
  function `AppState → AppState`.
- Timestamps (`Date.now()`) and generated ids (`uid()`) are passed in as
  explicit parameters.
-/

namespace Ledger

inductive TrackBy where
  | unit : TrackBy
  | kg : TrackBy
deriving DecidableEq

/-- `interface Item` of App.tsx. -/
structure Item where
  id : String
  name : String
  sku : Option String
  photoDataUrl : Option String
  trackBy : TrackBy
  unitLabel : Option String
  pricePerUnit : Option ℚ
  pricePerKg : Option ℚ
  stockUnits : Option ℚ
  stockKg : Option ℚ
  createdAt : Nat
  updatedAt : Nat
deriving DecidableEq

/-- `interface Sale` of App.tsx. -/
structure Sale where
  id : String
  itemId : String
  qtyUnits : Option ℚ
  qtyKg : Option ℚ
  unitPrice : Option ℚ
  kgPrice : Option ℚ
  total : ℚ
  note : Option String
  photoDataUrl : Option String
  timestamp : Nat
deriving DecidableEq

/-- The two persisted collections (`items` / `sales` React state). -/
structure AppState where
  items : List Item
  sales : List Sale
deriving DecidableEq

/-- `const clampNonNeg = (n) => (Number.isFinite(n) && n > 0 ? n : 0)`;
on `ℚ` every value is finite, so only the sign test remains. -/
def clampNonNeg (n : ℚ) : ℚ := if 0 < n then n else 0

/-- JS `x || 0` on a possibly-absent numeric field. -/
def orZero (o : Option ℚ) : ℚ := o.getD 0

/-- JS truthiness of a possibly-absent numeric field (`undefined`, `0`
are falsy). -/
def truthy (o : Option ℚ) : Bool :=
  match o with
  | none => false
  | some q => q ≠ 0

/-- `payload.note?.trim() || undefined`. -/
def trimOpt (o : Option String) : Option String :=
  match o with
  | none => none
  | some t => if t.trim = "" then none else some (t.trim)

/-- `itemMap.get id` where `itemMap = new Map(items.map(i => [i.id, i]))`:
for a duplicated id the Map keeps the last entry. -/
def itemLookup : List Item → String → Option Item
  | [], _ => none
  | i :: rest, id =>
    match itemLookup rest id with
    | some j => some j
    | none => if i.id = id then some i else none

/-- `adjustStock(id, deltaUnits, deltaKg)`: adds the delta to the stock
field matching `trackBy`, clamped to `≥ 0`, refreshing `updatedAt`. -/
def adjustStock (items : List Item) (id : String)
    (deltaUnits deltaKg : Option ℚ) (now : Nat) : List Item :=
  items.map fun i =>
    if i.id = id then
      match i.trackBy with
      | .unit =>
        { i with stockUnits := some (clampNonNeg (orZero i.stockUnits + orZero deltaUnits)),
                 updatedAt := now }
      | .kg =>
        { i with stockKg := some (clampNonNeg (orZero i.stockKg + orZero deltaKg)),
                 updatedAt := now }
    else i

/-- The payload of `addSale`. -/
structure SalePayload where
  itemId : String
  qtyUnits : Option ℚ := none
  qtyKg : Option ℚ := none
  overridePrice : Option ℚ := none
  note : Option String := none

/-- `addSale(payload)`: looks the Item up, clamps the quantity, resolves
the price (`overridePrice` if finite else catalog price), rejects when the
clamped quantity is `0` or stock is insufficient; on success prepends the
Sale and decrements stock via `adjustStock`. -/
def addSale (s : AppState) (p : SalePayload) (newId : String) (now : Nat) :
    AppState :=
  match itemLookup s.items p.itemId with
  | none => s
  | some it =>
    match it.trackBy with
    | .unit =>
      let q := clampNonNeg (orZero p.qtyUnits)
      if q ≤ 0 then s
      else
        let price :=
          match p.overridePrice with
          | some v => v
          | none => orZero it.pricePerUnit
        let total := q * price
        if orZero it.stockUnits < q then s
        else
          let sale : Sale :=
            { id := newId, itemId := it.id, qtyUnits := some q, qtyKg := none,
              unitPrice := some price, kgPrice := none, total := total,
              note := trimOpt p.note, photoDataUrl := none, timestamp := now }
          { items := adjustStock s.items it.id (some (-q)) (some 0) now,
            sales := sale :: s.sales }
    | .kg =>
      let qkg := clampNonNeg (orZero p.qtyKg)
      if qkg ≤ 0 then s
      else
        let priceKg :=
          match p.overridePrice with
          | some v => v
          | none => orZero it.pricePerKg
        let total := qkg * priceKg
        if orZero it.stockKg < qkg then s
        else
          let sale : Sale :=
            { id := newId, itemId := it.id, qtyUnits := none, qtyKg := some qkg,
              unitPrice := none, kgPrice := some priceKg, total := total,
              note := trimOpt p.note, photoDataUrl := none, timestamp := now }
          { items := adjustStock s.items it.id (some 0) (some (-qkg)) now,
            sales := sale :: s.sales }

/-- `Partial<Sale>`: outer `Option` = "key present in the object literal". -/
structure SaleChanges where
  id : Option String := none
  itemId : Option String := none
  qtyUnits : Option (Option ℚ) := none
  qtyKg : Option (Option ℚ) := none
  unitPrice : Option (Option ℚ) := none
  kgPrice : Option (Option ℚ) := none
  total : Option ℚ := none
  note : Option (Option String) := none
  photoDataUrl : Option (Option String) := none
  timestamp : Option Nat := none

/-- `const next = { ...old, ...changes }`. -/
def mergeSale (old : Sale) (c : SaleChanges) : Sale :=
  { id := c.id.getD old.id
    itemId := c.itemId.getD old.itemId
    qtyUnits := c.qtyUnits.getD old.qtyUnits
    qtyKg := c.qtyKg.getD old.qtyKg
    unitPrice := c.unitPrice.getD old.unitPrice
    kgPrice := c.kgPrice.getD old.kgPrice
    total := c.total.getD old.total
    note := c.note.getD old.note
    photoDataUrl := c.photoDataUrl.getD old.photoDataUrl
    timestamp := c.timestamp.getD old.timestamp }

/-- `updateSale(saleId, changes)`: merges `changes` over the old Sale,
reconciles the stock delta in the Item's tracking mode (rejecting if the
edit increases consumption beyond available stock), resolves the price
from the merged Sale's price field if finite else the Item's catalog
price, and recomputes `total`. -/
def updateSale (s : AppState) (saleId : String) (c : SaleChanges) (now : Nat) :
    AppState :=
  match s.sales.find? (fun x => x.id = saleId) with
  | none => s
  | some old =>
    match itemLookup s.items old.itemId with
    | none => s
    | some it =>
      let next := mergeSale old c
      match it.trackBy with
      | .unit =>
        let oldQty := clampNonNeg (orZero old.qtyUnits)
        let newQty := clampNonNeg (orZero next.qtyUnits)
        let delta := newQty - oldQty
        let available := orZero it.stockUnits
        if delta > 0 ∧ available < delta then s
        else
          let items1 :=
            if delta ≠ 0 then adjustStock s.items it.id (some (-delta)) (some 0) now
            else s.items
          let price :=
            match next.unitPrice with
            | some p => p
            | none => orZero it.pricePerUnit
          let next1 := { next with total := price * newQty }
          { items := items1,
            sales := s.sales.map fun x => if x.id = saleId then next1 else x }
      | .kg =>
        let oldKg := clampNonNeg (orZero old.qtyKg)
        let newKg := clampNonNeg (orZero next.qtyKg)
        let delta := newKg - oldKg
        let available := orZero it.stockKg
        if delta > 0 ∧ available < delta then s
        else
          let items1 :=
            if delta ≠ 0 then adjustStock s.items it.id (some 0) (some (-delta)) now
            else s.items
          let price :=
            match next.kgPrice with
            | some p => p
            | none => orZero it.pricePerKg
          let next1 := { next with total := price * newKg }
          { items := items1,
            sales := s.sales.map fun x => if x.id = saleId then next1 else x }

/-- `deleteSale(saleId)`: restores the consumed stock (only when the
quantity field of the Item's mode is truthy), then removes the Sale. -/
def deleteSale (s : AppState) (saleId : String) (now : Nat) : AppState :=
  match s.sales.find? (fun x => x.id = saleId) with
  | none => s
  | some sl =>
    let items1 :=
      match itemLookup s.items sl.itemId with
      | none => s.items
      | some it =>
        if it.trackBy = .unit ∧ truthy sl.qtyUnits then
          adjustStock s.items it.id sl.qtyUnits (some 0) now
        else if it.trackBy = .kg ∧ truthy sl.qtyKg then
          adjustStock s.items it.id (some 0) sl.qtyKg now
        else s.items
    { items := items1, sales := s.sales.filter fun x => x.id ≠ saleId }

/-- `Partial<Item> & { id?: string }`: outer `Option` = "key present". -/
structure ItemPatch where
  id : Option String := none
  name : Option String := none
  sku : Option (Option String) := none
  photoDataUrl : Option (Option String) := none
  trackBy : Option TrackBy := none
  unitLabel : Option (Option String) := none
  pricePerUnit : Option (Option ℚ) := none
  pricePerKg : Option (Option ℚ) := none
  stockUnits : Option (Option ℚ) := none
  stockKg : Option (Option ℚ) := none
  createdAt : Option Nat := none

/-- `{ ...i, ...partialFields, updatedAt: Date.now() }`. -/
def mergeItem (i : Item) (patch : ItemPatch) (now : Nat) : Item :=
  { id := patch.id.getD i.id
    name := patch.name.getD i.name
    sku := patch.sku.getD i.sku
    photoDataUrl := patch.photoDataUrl.getD i.photoDataUrl
    trackBy := patch.trackBy.getD i.trackBy
    unitLabel := patch.unitLabel.getD i.unitLabel
    pricePerUnit := patch.pricePerUnit.getD i.pricePerUnit
    pricePerKg := patch.pricePerKg.getD i.pricePerKg
    stockUnits := patch.stockUnits.getD i.stockUnits
    stockKg := patch.stockKg.getD i.stockKg
    createdAt := patch.createdAt.getD i.createdAt
    updatedAt := now }

/-- `partial.unitLabel || (trackBy === "kg" ? "kg" : "unit")`. -/
def defaultLabel (tb : TrackBy) : String :=
  match tb with
  | .kg => "kg"
  | .unit => "unit"

/-- `upsertItem(partial)`: with an id, merges the supplied fields verbatim
into the existing Item (refreshing only `updatedAt`); without an id,
creates a fresh Item, trimming text fields, defaulting the label and
clamping supplied stock to `≥ 0`, and prepends it. -/
def upsertItem (s : AppState) (patch : ItemPatch) (newId : String) (now : Nat) :
    AppState :=
  match patch.id with
  | some pid =>
    { s with items := s.items.map fun i =>
        if i.id = pid then mergeItem i patch now else i }
  | none =>
    let tb := patch.trackBy.getD .unit
    let newI : Item :=
      { id := newId
        name :=
          match patch.name with
          | some n => if n.trim = "" then "Unnamed" else n.trim
          | none => "Unnamed"
        sku := trimOpt patch.sku.join
        photoDataUrl := patch.photoDataUrl.join
        trackBy := tb
        unitLabel := some
          (match patch.unitLabel.join with
           | some l => if l = "" then defaultLabel tb else l
           | none => defaultLabel tb)
        pricePerUnit := patch.pricePerUnit.join
        pricePerKg := patch.pricePerKg.join
        stockUnits :=
          if tb = .unit then some (clampNonNeg (orZero patch.stockUnits.join))
          else none
        stockKg :=
          if tb = .kg then some (clampNonNeg (orZero patch.stockKg.join))
          else none
        createdAt := now
        updatedAt := now }
    { s with items := newI :: s.items }

/-- `deleteItem(id, alsoDeleteSales)`. -/
def deleteItem (s : AppState) (id : String) (alsoDeleteSales : Bool) :
    AppState :=
  { items := s.items.filter fun i => i.id ≠ id,
    sales := if alsoDeleteSales then s.sales.filter fun sl => sl.itemId ≠ id
             else s.sales }

/-- The parsed import envelope: `none` models a missing / non-array
`items` or `sales` field (`Array.isArray` fails). -/
structure ImportPayload where
  items : Option (List Item)
  sales : Option (List Sale)

/-- `importJson`: if either field fails `Array.isArray`, alert and keep the
previous state; otherwise replace both collections wholesale.  (A JSON
parse failure is caught and likewise leaves the state unchanged; it is
subsumed by the `none` case.) -/
def importJson (s : AppState) (p : ImportPayload) : AppState :=
  match p.items, p.sales with
  | some its, some sls => { items := its, sales := sls }
  | _, _ => s

/-- Per-item aggregates of `statsByItem`. -/
structure Stats where
  soldUnits : ℚ
  soldKg : ℚ
  revenue : ℚ
deriving DecidableEq

/-- `Map.set` on the function model of a JS `Map`. -/
def msetF (m : String → Option Stats) (k : String) (v : Stats) :
    String → Option Stats :=
  fun k2 => if k2 = k then some v else m k2

/-- The `base` map of `statsByItem`: one zero entry per Item id. -/
def statsBase (items : List Item) : String → Option Stats :=
  items.foldl (fun m it => msetF m it.id ⟨0, 0, 0⟩) (fun _ => none)

/-- One iteration of the `for (const s of sales)` loop of `statsByItem`:
skip the Sale if its Item has no entry, else accumulate clamped
quantities and revenue. -/
def statsStep (m : String → Option Stats) (sl : Sale) :
    String → Option Stats :=
  match m sl.itemId with
  | none => m
  | some st =>
    msetF m sl.itemId
      ⟨st.soldUnits + clampNonNeg (orZero sl.qtyUnits),
       st.soldKg + clampNonNeg (orZero sl.qtyKg),
       st.revenue + clampNonNeg sl.total⟩

/-- `statsByItem`, as a lookup function from Item id to aggregates. -/
def statsByItem (items : List Item) (sales : List Sale) :
    String → Option Stats :=
  sales.foldl statsStep (statsBase items)

/-- The ledger operations quantified over in the stock invariant. -/
inductive Op where
  | adjust (id : String) (deltaUnits deltaKg : Option ℚ) (now : Nat) : Op
  | sell (p : SalePayload) (newId : String) (now : Nat) : Op
  | editSale (saleId : String) (c : SaleChanges) (now : Nat) : Op
  | removeSale (saleId : String) (now : Nat) : Op

def applyOp (s : AppState) : Op → AppState
  | .adjust id du dk now => { s with items := adjustStock s.items id du dk now }
  | .sell p newId now => addSale s p newId now
  | .editSale saleId c now => updateSale s saleId c now
  | .removeSale saleId now => deleteSale s saleId now

def applyOps (s : AppState) (ops : List Op) : AppState :=
  ops.foldl applyOp s

/-- The stock of an Item in its tracking mode, reading an absent field
as `0` (as every code site does via `|| 0`). -/
def Item.stockOf (i : Item) : ℚ :=
  match i.trackBy with
  | .unit => orZero i.stockUnits
  | .kg => orZero i.stockKg

/-- The catalog price of an Item in its tracking mode. -/
def Item.priceOf (i : Item) : ℚ :=
  match i.trackBy with
  | .unit => orZero i.pricePerUnit
  | .kg => orZero i.pricePerKg

/-- The quantity field of a Sale selected by a tracking mode. -/
def saleQty (tb : TrackBy) (sl : Sale) : Option ℚ :=
  match tb with
  | .unit => sl.qtyUnits
  | .kg => sl.qtyKg

/-- The price-snapshot field of a Sale selected by a tracking mode. -/
def salePrice (tb : TrackBy) (sl : Sale) : Option ℚ :=
  match tb with
  | .unit => sl.unitPrice
  | .kg => sl.kgPrice

/-- The quantity field of an `addSale` payload selected by a mode. -/
def payloadQty (tb : TrackBy) (p : SalePayload) : Option ℚ :=
  match tb with
  | .unit => p.qtyUnits
  | .kg => p.qtyKg

/-- Stock non-negativity invariant (§8 of the spec): every Item's stock
in its tracking mode is `≥ 0`. -/
def StockOk (items : List Item) : Prop :=
  ∀ i ∈ items, 0 ≤ i.stockOf

instance : DecidablePred StockOk := fun items =>
  inferInstanceAs (Decidable (∀ i ∈ items, 0 ≤ i.stockOf))

/-- `addSale`'s effective price: `overridePrice` if finite, else the
Item's catalog price for its mode. -/
def resolvedPrice (it : Item) (p : SalePayload) : ℚ :=
  match p.overridePrice with
  | some v => v
  | none => it.priceOf

lemma clampNonNeg_nonneg (n : ℚ) : 0 ≤ clampNonNeg n := by
  unfold clampNonNeg
  split
  · linarith
  · exact le_refl 0

lemma clampNonNeg_of_nonneg {n : ℚ} (h : 0 ≤ n) : clampNonNeg n = n := by
  unfold clampNonNeg
  split
  · rfl
  · linarith

lemma orZero_some (x : ℚ) : orZero (some x) = x := rfl

lemma itemLookup_eq_id {items : List Item} {id : String} {i : Item}
    (h : itemLookup items id = some i) : i.id = id := by
  induction items with
  | nil => simp [itemLookup] at h
  | cons a rest ih =>
    unfold itemLookup at h
    cases hr : itemLookup rest id with
    | some j =>
      rw [hr] at h
      exact ih (hr.trans (by injection h with h2; rw [h2]))
    | none =>
      rw [hr] at h
      by_cases ha : a.id = id
      · rw [if_pos ha] at h
        injection h with h2
        rw [← h2]; exact ha
      · rw [if_neg ha] at h
        cases h

lemma itemLookup_map (f : Item → Item) (hf : ∀ i, (f i).id = i.id)
    (items : List Item) (id : String) :
    itemLookup (items.map f) id = (itemLookup items id).map f := by
  induction items with
  | nil => rfl
  | cons a rest ih =>
    unfold itemLookup
    rw [List.map_cons]
    show (match itemLookup (rest.map f) id with
          | some j => some j
          | none => if (f a).id = id then some (f a) else none) = _
    rw [ih, hf a]
    cases itemLookup rest id with
    | some j => rfl
    | none =>
      by_cases ha : a.id = id
      · rw [if_pos ha, if_pos ha]; rfl
      · rw [if_neg ha, if_neg ha]; rfl

lemma adjustStock_lookup {items : List Item} {id : String} {it : Item}
    (du dk : Option ℚ) (now : Nat)
    (hit : itemLookup items id = some it) :
    itemLookup (adjustStock items id du dk now) id =
      some (match it.trackBy with
        | .unit => { it with
            stockUnits := some (clampNonNeg (orZero it.stockUnits + orZero du)),
            updatedAt := now }
        | .kg => { it with
            stockKg := some (clampNonNeg (orZero it.stockKg + orZero dk)),
            updatedAt := now }) := by
  unfold adjustStock
  rw [itemLookup_map _ (fun i => by
        split
        · split <;> rfl
        · rfl),
      hit]
  simp only [Option.map_some']
  rw [if_pos (itemLookup_eq_id hit)]

lemma stockOk_adjustStock {items : List Item} (id : String)
    (du dk : Option ℚ) (now : Nat) (h : StockOk items) :
    StockOk (adjustStock items id du dk now) := by
  intro i' hmem
  rw [adjustStock, List.mem_map] at hmem
  obtain ⟨i, hi, rfl⟩ := hmem
  by_cases hid : i.id = id
  · rw [if_pos hid]
    cases htb : i.trackBy with
    | unit =>
      show 0 ≤ Item.stockOf _
      unfold Item.stockOf
      simp only [htb]
      exact clampNonNeg_nonneg _
    | kg =>
      show 0 ≤ Item.stockOf _
      unfold Item.stockOf
      simp only [htb]
      exact clampNonNeg_nonneg _
  · rw [if_neg hid]
    exact h i hi

lemma stockOk_addSale (s : AppState) (p : SalePayload) (nid : String)
    (now : Nat) (h : StockOk s.items) :
    StockOk ((addSale s p nid now).items) := by
  unfold addSale
  split
  · exact h
  · split <;> dsimp only <;> (repeat' split) <;>
      first
        | exact h
        | exact stockOk_adjustStock _ _ _ _ h

lemma stockOk_updateSale (s : AppState) (saleId : String) (c : SaleChanges)
    (now : Nat) (h : StockOk s.items) :
    StockOk ((updateSale s saleId c now).items) := by
  unfold updateSale
  split
  · exact h
  · split
    · exact h
    · split <;> dsimp only <;> (repeat' split) <;>
        first
          | exact h
          | exact stockOk_adjustStock _ _ _ _ h

lemma stockOk_deleteSale (s : AppState) (saleId : String) (now : Nat)
    (h : StockOk s.items) :
    StockOk ((deleteSale s saleId now).items) := by
  unfold deleteSale
  split
  · exact h
  · dsimp only
    repeat' split
    all_goals
      first
        | exact h
        | exact stockOk_adjustStock _ _ _ _ h

lemma stockOk_applyOp (s : AppState) (op : Op) (h : StockOk s.items) :
    StockOk ((applyOp s op).items) := by
  cases op with
  | adjust id du dk now => exact stockOk_adjustStock _ _ _ _ h
  | sell p newId now => exact stockOk_addSale _ _ _ _ h
  | editSale saleId c now => exact stockOk_updateSale _ _ _ _ h
  | removeSale saleId now => exact stockOk_deleteSale _ _ _ h

/-- C1: For every Item and every finite sequence of `adjustStock`,
`addSale`, `updateSale`, and `deleteSale` operations starting from a state
in which every Item's stock in its tracking mode is non-negative, stock in
the tracking mode remains `≥ 0` after every operation of the sequence. -/
theorem C1_stock_never_negative (s : AppState) (ops : List Op)
    (h : StockOk s.items) : StockOk ((applyOps s ops).items) := by
  induction ops generalizing s with
  | nil => exact h
  | cons op rest ih => exact ih (applyOp s op) (stockOk_applyOp s op h)

/-- Characterization of a successful `addSale`: with a positive clamped
quantity and sufficient stock, exactly one Sale is prepended, carrying a
quantity and price snapshot and `total = qty × price`, and the Item's
stock in its mode drops by exactly the quantity. -/
lemma addSale_success_spec (s : AppState) (p : SalePayload) (nid : String)
    (now : Nat) (it : Item)
    (hit : itemLookup s.items p.itemId = some it)
    (hq : 0 < clampNonNeg (orZero (payloadQty it.trackBy p)))
    (hstock : clampNonNeg (orZero (payloadQty it.trackBy p)) ≤ it.stockOf) :
    ∃ sale : Sale,
      (addSale s p nid now).sales = sale :: s.sales ∧
      sale.id = nid ∧
      sale.itemId = p.itemId ∧
      saleQty it.trackBy sale
        = some (clampNonNeg (orZero (payloadQty it.trackBy p))) ∧
      salePrice it.trackBy sale = some (resolvedPrice it p) ∧
      sale.total = clampNonNeg (orZero (payloadQty it.trackBy p)) * resolvedPrice it p ∧
      (itemLookup (addSale s p nid now).items p.itemId).map Item.stockOf
        = some (it.stockOf - clampNonNeg (orZero (payloadQty it.trackBy p))) ∧
      (addSale s p nid now).items
        = adjustStock s.items p.itemId
            (match it.trackBy with
             | .unit => some (-(clampNonNeg (orZero (payloadQty it.trackBy p))))
             | .kg => some 0)
            (match it.trackBy with
             | .unit => some 0
             | .kg => some (-(clampNonNeg (orZero (payloadQty it.trackBy p))))) now := by
  have hid := itemLookup_eq_id hit
  have hit2 : itemLookup s.items it.id = some it := by rw [hid]; exact hit
  cases htb : it.trackBy with
  | unit =>
    have hq' : 0 < clampNonNeg (orZero p.qtyUnits) := by
      rw [htb] at hq; simpa [payloadQty] using hq
    have hs' : clampNonNeg (orZero p.qtyUnits) ≤ orZero it.stockUnits := by
      simpa [payloadQty, Item.stockOf, htb] using hstock
    unfold addSale
    rw [hit]
    dsimp only
    rw [htb]
    dsimp only [payloadQty]
    rw [if_neg (not_le.mpr hq'), if_neg (not_lt.mpr hs')]
    refine ⟨_, rfl, rfl, hid, rfl, ?_, ?_, ?_, ?_⟩
    · dsimp only [salePrice, resolvedPrice, Item.priceOf]
      rw [htb]
    · dsimp only [resolvedPrice, Item.priceOf]
      rw [htb]
    · have e : clampNonNeg (orZero it.stockUnits + orZero (some (-clampNonNeg (orZero p.qtyUnits))))
          = orZero it.stockUnits - clampNonNeg (orZero p.qtyUnits) := by
        have e2 : orZero it.stockUnits + orZero (some (-clampNonNeg (orZero p.qtyUnits)))
            = orZero it.stockUnits - clampNonNeg (orZero p.qtyUnits) := by
          unfold orZero
          simp [sub_eq_add_neg]
        rw [e2, clampNonNeg_of_nonneg (by linarith)]
      dsimp only
      rw [hid]
      rw [adjustStock_lookup _ _ _ hit]
      rw [htb]
      dsimp only [Option.map_some']
      unfold Item.stockOf
      dsimp only
      rw [htb]
      dsimp only
      rw [e]
      rfl
    · dsimp only [payloadQty]
      rw [hid]
  | kg =>
    have hq' : 0 < clampNonNeg (orZero p.qtyKg) := by
      rw [htb] at hq; simpa [payloadQty] using hq
    have hs' : clampNonNeg (orZero p.qtyKg) ≤ orZero it.stockKg := by
      simpa [payloadQty, Item.stockOf, htb] using hstock
    unfold addSale
    rw [hit]
    dsimp only
    rw [htb]
    dsimp only [payloadQty]
    rw [if_neg (not_le.mpr hq'), if_neg (not_lt.mpr hs')]
    refine ⟨_, rfl, rfl, hid, rfl, ?_, ?_, ?_, ?_⟩
    · dsimp only [salePrice, resolvedPrice, Item.priceOf]
      rw [htb]
    · dsimp only [resolvedPrice, Item.priceOf]
      rw [htb]
    · have e : clampNonNeg (orZero it.stockKg + orZero (some (-clampNonNeg (orZero p.qtyKg))))
          = orZero it.stockKg - clampNonNeg (orZero p.qtyKg) := by
        have e2 : orZero it.stockKg + orZero (some (-clampNonNeg (orZero p.qtyKg)))
            = orZero it.stockKg - clampNonNeg (orZero p.qtyKg) := by
          unfold orZero
          simp [sub_eq_add_neg]
        rw [e2, clampNonNeg_of_nonneg (by linarith)]
      dsimp only
      rw [hid]
      rw [adjustStock_lookup _ _ _ hit]
      rw [htb]
      dsimp only [Option.map_some']
      unfold Item.stockOf
      dsimp only
      rw [htb]
      dsimp only
      rw [e]
      rfl
    · dsimp only [payloadQty]
      rw [hid]

/-- A unit-tracked sample Item: price 10, stock 3. -/
def itemU : Item :=
  { id := "A", name := "meat", sku := none, photoDataUrl := none,
    trackBy := .unit, unitLabel := none, pricePerUnit := some 10,
    pricePerKg := none, stockUnits := some 3, stockKg := none,
    createdAt := 0, updatedAt := 0 }

/-- A state holding just `itemU` and no sales. -/
def stU : AppState := { items := [itemU], sales := [] }

def pay3 : SalePayload := { itemId := "A", qtyUnits := some 3 }

def pay5 : SalePayload := { itemId := "A", qtyUnits := some 5 }

def payNeg : SalePayload :=
  { itemId := "A", qtyUnits := some 2, overridePrice := some (-5) }

theorem C1_stock_never_negative_witness :
    StockOk stU.items ∧
    StockOk ((applyOps stU
      [Op.adjust "A" (some (-5)) none 1,
       Op.sell { itemId := "A", qtyUnits := some 2 } "S1" 2,
       Op.removeSale "S1" 3]).items) :=
  ⟨by decide, C1_stock_never_negative stU _ (by decide)⟩

/-- C2: if the Item's available stock in its tracking mode is strictly
below the clamped, positive requested quantity, `addSale` is rejected:
the whole state (Sales collection and the Item) is unchanged. -/
theorem C2_insufficient_stock_rejected (s : AppState) (p : SalePayload)
    (nid : String) (now : Nat) (it : Item)
    (hit : itemLookup s.items p.itemId = some it)
    (hq : 0 < clampNonNeg (orZero (payloadQty it.trackBy p)))
    (hstock : it.stockOf < clampNonNeg (orZero (payloadQty it.trackBy p))) :
    addSale s p nid now = s := by
  cases htb : it.trackBy with
  | unit =>
    have hq' : 0 < clampNonNeg (orZero p.qtyUnits) := by
      rw [htb] at hq; simpa [payloadQty] using hq
    have hs' : orZero it.stockUnits < clampNonNeg (orZero p.qtyUnits) := by
      simpa [payloadQty, Item.stockOf, htb] using hstock
    unfold addSale
    rw [hit]
    dsimp only
    rw [htb]
    dsimp only
    rw [if_neg (not_le.mpr hq'), if_pos hs']
  | kg =>
    have hq' : 0 < clampNonNeg (orZero p.qtyKg) := by
      rw [htb] at hq; simpa [payloadQty] using hq
    have hs' : orZero it.stockKg < clampNonNeg (orZero p.qtyKg) := by
      simpa [payloadQty, Item.stockOf, htb] using hstock
    unfold addSale
    rw [hit]
    dsimp only
    rw [htb]
    dsimp only
    rw [if_neg (not_le.mpr hq'), if_pos hs']

theorem C2_insufficient_stock_rejected_witness :
    itemU.stockOf < clampNonNeg (orZero (payloadQty itemU.trackBy pay5)) ∧
    addSale stU pay5 "S1" 7 = stU :=
  ⟨by decide,
    C2_insufficient_stock_rejected stU pay5 "S1" 7 itemU (by decide)
      (by decide) (by decide)⟩

/-- C5: with available stock at least the clamped positive quantity `q`
and resolved price `p`, `addSale` prepends exactly one new Sale with
quantity `q`, price snapshot `p` and `total = q × p`, and decrements the
Item's stock in the matching mode by exactly `q`. -/
theorem C5_successful_sale (s : AppState) (p : SalePayload) (nid : String)
    (now : Nat) (it : Item)
    (hit : itemLookup s.items p.itemId = some it)
    (hq : 0 < clampNonNeg (orZero (payloadQty it.trackBy p)))
    (hstock : clampNonNeg (orZero (payloadQty it.trackBy p)) ≤ it.stockOf) :
    ∃ sale : Sale,
      (addSale s p nid now).sales = sale :: s.sales ∧
      sale.id = nid ∧
      sale.itemId = p.itemId ∧
      saleQty it.trackBy sale
        = some (clampNonNeg (orZero (payloadQty it.trackBy p))) ∧
      salePrice it.trackBy sale = some (resolvedPrice it p) ∧
      sale.total = clampNonNeg (orZero (payloadQty it.trackBy p)) * resolvedPrice it p ∧
      (itemLookup (addSale s p nid now).items p.itemId).map Item.stockOf
        = some (it.stockOf - clampNonNeg (orZero (payloadQty it.trackBy p))) := by
  obtain ⟨sale, h1, h2, h3, h4, h5, h6, h7, -⟩ :=
    addSale_success_spec s p nid now it hit hq hstock
  exact ⟨sale, h1, h2, h3, h4, h5, h6, h7⟩

theorem C5_successful_sale_witness :
    (clampNonNeg (orZero (payloadQty itemU.trackBy pay3)) = 3 ∧
     resolvedPrice itemU pay3 = 10 ∧
     itemU.stockOf = 3) ∧
    (∃ sale : Sale,
      (addSale stU pay3 "S1" 7).sales = sale :: stU.sales ∧
      sale.id = "S1" ∧
      saleQty itemU.trackBy sale = some 3 ∧
      salePrice itemU.trackBy sale = some 10 ∧
      sale.total = 30) ∧
    (itemLookup (addSale stU pay3 "S1" 7).items pay3.itemId).map Item.stockOf
      = some 0 := by
  obtain ⟨sale, h1, h2, h3, h4, h5, h6, h7⟩ :=
    C5_successful_sale stU pay3 "S1" 7 itemU (by decide) (by decide) (by decide)
  have eq1 : clampNonNeg (orZero (payloadQty itemU.trackBy pay3)) = 3 := by decide
  have eq2 : resolvedPrice itemU pay3 = 10 := by decide
  have eq3 : itemU.stockOf = 3 := by decide
  refine ⟨⟨eq1, eq2, eq3⟩, ⟨sale, h1, h2, ?_, ?_, ?_⟩, ?_⟩
  · rw [h4, eq1]
  · rw [h5, eq2]
  · rw [h6, eq1, eq2]
    norm_num
  · rw [h7, eq1, eq3, sub_self]

/-- C10: a finite but negative `overridePrice` is used verbatim by
`addSale` (prices are not clamped): provided the quantity and stock
checks pass, the Sale is created with a negative price snapshot and a
negative `total = qty × price`. -/
theorem C10_negative_override_price (s : AppState) (p : SalePayload)
    (nid : String) (now : Nat) (it : Item) (pr : ℚ)
    (hit : itemLookup s.items p.itemId = some it)
    (hov : p.overridePrice = some pr)
    (hneg : pr < 0)
    (hq : 0 < clampNonNeg (orZero (payloadQty it.trackBy p)))
    (hstock : clampNonNeg (orZero (payloadQty it.trackBy p)) ≤ it.stockOf) :
    ∃ sale : Sale,
      (addSale s p nid now).sales = sale :: s.sales ∧
      salePrice it.trackBy sale = some pr ∧
      sale.total = clampNonNeg (orZero (payloadQty it.trackBy p)) * pr ∧
      sale.total < 0 := by
  obtain ⟨sale, h1, _, _, _, h5, h6, _⟩ :=
    addSale_success_spec s p nid now it hit hq hstock
  have hres : resolvedPrice it p = pr := by unfold resolvedPrice; rw [hov]
  refine ⟨sale, h1, ?_, ?_, ?_⟩
  · rw [h5, hres]
  · rw [h6, hres]
  · rw [h6, hres]
    exact mul_neg_of_pos_of_neg hq hneg

theorem C10_negative_override_price_witness :
    (payNeg.overridePrice = some (-5) ∧ (-5 : ℚ) < 0) ∧
    (∃ sale : Sale,
      (addSale stU payNeg "S1" 7).sales = sale :: stU.sales ∧
      salePrice itemU.trackBy sale = some (-5) ∧
      sale.total = clampNonNeg (orZero (payloadQty itemU.trackBy payNeg)) * (-5) ∧
      sale.total < 0) :=
  ⟨⟨by decide, by decide⟩,
    C10_negative_override_price stU payNeg "S1" 7 itemU (-5) (by decide)
      (by decide) (by decide) (by decide) (by decide)⟩

lemma find_map_replace (l : List Sale) (saleId : String) (y old : Sale)
    (hold : l.find? (fun x => x.id = saleId) = some old)
    (hy : y.id = saleId) :
    (l.map fun x => if x.id = saleId then y else x).find?
      (fun x => x.id = saleId) = some y := by
  induction l with
  | nil => simp at hold
  | cons a rest ih =>
    by_cases ha : a.id = saleId
    · rw [List.map_cons, if_pos ha]
      exact List.find?_cons_of_pos _ (by simp [hy])
    · rw [List.map_cons, if_neg ha]
      rw [List.find?_cons_of_neg _ (by simp [ha])]
      have hold2 : rest.find? (fun x => x.id = saleId) = some old := by
        rwa [List.find?_cons_of_neg _ (by simp [ha])] at hold
      exact ih hold2

lemma map_find_replace {α : Type} (l : List Sale) (saleId : String)
    (y old : Sale) (f : Sale → α)
    (hold : l.find? (fun x => x.id = saleId) = some old)
    (hy : y.id = saleId) :
    ((l.map fun x => if x.id = saleId then y else x).find?
      (fun x => x.id = saleId)).map f = some (f y) := by
  rw [find_map_replace l saleId y old hold hy]
  rfl

/-- C4: an `updateSale` raising consumption by `delta > 0` while the
Item's available stock in the matching mode is `< delta` is rejected
atomically: the whole state, Sale and Item included, is unchanged. -/
theorem C4_update_insufficient_rejected (s : AppState) (saleId : String)
    (c : SaleChanges) (now : Nat) (old : Sale) (it : Item)
    (hold : s.sales.find? (fun x => x.id = saleId) = some old)
    (hit : itemLookup s.items old.itemId = some it)
    (hd : 0 < clampNonNeg (orZero (saleQty it.trackBy (mergeSale old c)))
            - clampNonNeg (orZero (saleQty it.trackBy old)))
    (hs : it.stockOf < clampNonNeg (orZero (saleQty it.trackBy (mergeSale old c)))
            - clampNonNeg (orZero (saleQty it.trackBy old))) :
    updateSale s saleId c now = s := by
  cases htb : it.trackBy with
  | unit =>
    have hd2 : 0 < clampNonNeg (orZero (mergeSale old c).qtyUnits)
        - clampNonNeg (orZero old.qtyUnits) := by
      simpa [saleQty, htb] using hd
    have hs2 : orZero it.stockUnits < clampNonNeg (orZero (mergeSale old c).qtyUnits)
        - clampNonNeg (orZero old.qtyUnits) := by
      simpa [saleQty, Item.stockOf, htb] using hs
    unfold updateSale
    rw [hold]
    dsimp only
    rw [hit]
    dsimp only
    rw [htb]
    dsimp only
    rw [if_pos ⟨hd2, hs2⟩]
  | kg =>
    have hd2 : 0 < clampNonNeg (orZero (mergeSale old c).qtyKg)
        - clampNonNeg (orZero old.qtyKg) := by
      simpa [saleQty, htb] using hd
    have hs2 : orZero it.stockKg < clampNonNeg (orZero (mergeSale old c).qtyKg)
        - clampNonNeg (orZero old.qtyKg) := by
      simpa [saleQty, Item.stockOf, htb] using hs
    unfold updateSale
    rw [hold]
    dsimp only
    rw [hit]
    dsimp only
    rw [htb]
    dsimp only
    rw [if_pos ⟨hd2, hs2⟩]

/-- A Sale of 2 units of `itemU` at the snapshot price 10. -/
def saleW : Sale :=
  { id := "S", itemId := "A", qtyUnits := some 2, qtyKg := none,
    unitPrice := some 10, kgPrice := none, total := 20, note := none,
    photoDataUrl := none, timestamp := 0 }

/-- The C4 witness state: the Sale's Item is out of stock. -/
def itemC4 : Item := { itemU with stockUnits := some 0 }

def stC4 : AppState := { items := [itemC4], sales := [saleW] }

def chC4 : SaleChanges := { qtyUnits := some (some 4) }

theorem C4_update_insufficient_rejected_witness :
    (0 < clampNonNeg (orZero (saleQty itemC4.trackBy (mergeSale saleW chC4)))
        - clampNonNeg (orZero (saleQty itemC4.trackBy saleW))) ∧
    updateSale stC4 "S" chC4 9 = stC4 := by
  have e1 : clampNonNeg (orZero (saleQty itemC4.trackBy (mergeSale saleW chC4))) = 4 := by
    decide
  have e2 : clampNonNeg (orZero (saleQty itemC4.trackBy saleW)) = 2 := by decide
  have e3 : itemC4.stockOf = 0 := by decide
  have hd : 0 < clampNonNeg (orZero (saleQty itemC4.trackBy (mergeSale saleW chC4)))
      - clampNonNeg (orZero (saleQty itemC4.trackBy saleW)) := by
    rw [e1, e2]
    exact sub_pos.mpr (by decide)
  have hs : itemC4.stockOf < clampNonNeg (orZero (saleQty itemC4.trackBy (mergeSale saleW chC4)))
      - clampNonNeg (orZero (saleQty itemC4.trackBy saleW)) := by
    rw [e1, e2, e3]
    exact sub_pos.mpr (by decide)
  exact ⟨hd,
    C4_update_insufficient_rejected stC4 "S" chC4 9 saleW itemC4
      (by decide) (by decide) hd hs⟩

/-- An Item whose current catalog price (7) differs from the snapshot
price (5) on its recorded Sale. -/
def itemC3 : Item := { itemU with pricePerUnit := some 7, stockUnits := some 10 }

def saleC3 : Sale :=
  { id := "S", itemId := "A", qtyUnits := some 2, qtyKg := none,
    unitPrice := some 5, kgPrice := none, total := 10, note := none,
    photoDataUrl := none, timestamp := 0 }

def stC3 : AppState := { items := [itemC3], sales := [saleC3] }

/-- Changes raising the quantity to 3 and omitting the price field. -/
def chC3 : SaleChanges := { qtyUnits := some (some 3) }

/-- When `changes` omit the price field for the Sale's mode, `updateSale`
resolves the price from the merged Sale — i.e. the old snapshot when
present, the Item's catalog price only otherwise — and the stored price
field keeps the old snapshot. -/
lemma updateSale_omitted_price (s : AppState) (saleId : String)
    (c : SaleChanges) (now : Nat) (old : Sale) (it : Item)
    (hold : s.sales.find? (fun x => x.id = saleId) = some old)
    (hit : itemLookup s.items old.itemId = some it)
    (hcid : c.id = none)
    (homit : (match it.trackBy with
              | .unit => c.unitPrice
              | .kg => c.kgPrice) = none)
    (hnorej : ¬ (0 < clampNonNeg (orZero (saleQty it.trackBy (mergeSale old c)))
                  - clampNonNeg (orZero (saleQty it.trackBy old)) ∧
                it.stockOf < clampNonNeg (orZero (saleQty it.trackBy (mergeSale old c)))
                  - clampNonNeg (orZero (saleQty it.trackBy old)))) :
    ((updateSale s saleId c now).sales.find? (fun x => x.id = saleId)).map
        Sale.total
      = some ((salePrice it.trackBy old).getD it.priceOf
          * clampNonNeg (orZero (saleQty it.trackBy (mergeSale old c)))) ∧
    ((updateSale s saleId c now).sales.find? (fun x => x.id = saleId)).map
        (salePrice it.trackBy)
      = some (salePrice it.trackBy old) := by
  have hoid : old.id = saleId := by
    have h1 := List.find?_some hold
    exact of_decide_eq_true h1
  have hnid : (mergeSale old c).id = saleId := by
    unfold mergeSale
    rw [hcid]
    exact hoid
  cases htb : it.trackBy with
  | unit =>
    have homit2 : c.unitPrice = none := by simpa [htb] using homit
    have hmul : (mergeSale old c).unitPrice = old.unitPrice := by
      unfold mergeSale
      rw [homit2]
      rfl
    have hnorej2 : ¬ (0 < clampNonNeg (orZero (mergeSale old c).qtyUnits)
        - clampNonNeg (orZero old.qtyUnits) ∧
        orZero it.stockUnits < clampNonNeg (orZero (mergeSale old c).qtyUnits)
        - clampNonNeg (orZero old.qtyUnits)) := by
      simpa [saleQty, Item.stockOf, htb] using hnorej
    unfold updateSale
    rw [hold]
    dsimp only
    rw [hit]
    dsimp only
    rw [htb]
    dsimp only
    rw [if_neg hnorej2]
    dsimp only
    constructor
    · refine Eq.trans (map_find_replace s.sales saleId _ old Sale.total hold ?_) ?_
      · exact hnid
      · dsimp only [salePrice, saleQty]
        rw [hmul]
        unfold Item.priceOf
        rw [htb]
        cases old.unitPrice with
        | none => rfl
        | some pr => rfl
    · refine Eq.trans
        (map_find_replace s.sales saleId _ old (salePrice TrackBy.unit) hold ?_) ?_
      · exact hnid
      · dsimp only [salePrice]
        rw [hmul]
  | kg =>
    have homit2 : c.kgPrice = none := by simpa [htb] using homit
    have hmul : (mergeSale old c).kgPrice = old.kgPrice := by
      unfold mergeSale
      rw [homit2]
      rfl
    have hnorej2 : ¬ (0 < clampNonNeg (orZero (mergeSale old c).qtyKg)
        - clampNonNeg (orZero old.qtyKg) ∧
        orZero it.stockKg < clampNonNeg (orZero (mergeSale old c).qtyKg)
        - clampNonNeg (orZero old.qtyKg)) := by
      simpa [saleQty, Item.stockOf, htb] using hnorej
    unfold updateSale
    rw [hold]
    dsimp only
    rw [hit]
    dsimp only
    rw [htb]
    dsimp only
    rw [if_neg hnorej2]
    dsimp only
    constructor
    · refine Eq.trans (map_find_replace s.sales saleId _ old Sale.total hold ?_) ?_
      · exact hnid
      · dsimp only [salePrice, saleQty]
        rw [hmul]
        unfold Item.priceOf
        rw [htb]
        cases old.kgPrice with
        | none => rfl
        | some pr => rfl
    · refine Eq.trans
        (map_find_replace s.sales saleId _ old (salePrice TrackBy.kg) hold ?_) ?_
      · exact hnid
      · dsimp only [salePrice]
        rw [hmul]

lemma stC3_norej : ¬ (0 < clampNonNeg (orZero (saleQty itemC3.trackBy (mergeSale saleC3 chC3)))
      - clampNonNeg (orZero (saleQty itemC3.trackBy saleC3)) ∧
    itemC3.stockOf < clampNonNeg (orZero (saleQty itemC3.trackBy (mergeSale saleC3 chC3)))
      - clampNonNeg (orZero (saleQty itemC3.trackBy saleC3))) := by
  have e1 : clampNonNeg (orZero (saleQty itemC3.trackBy (mergeSale saleC3 chC3))) = 3 := by
    decide
  have e2 : clampNonNeg (orZero (saleQty itemC3.trackBy saleC3)) = 2 := by decide
  have e3 : itemC3.stockOf = 10 := by decide
  rw [e1, e2, e3]
  rintro ⟨-, h2⟩
  have h3 : (3 : ℚ) - 2 ≤ 10 := by norm_num
  exact absurd h2 (not_lt.mpr h3)

/-- C3 counterexample: an `updateSale` whose changes omit the price field
for the Sale's mode resolves the price from the Sale's previously
snapshotted price (5), not from the Item's current catalog price (7):
`total` becomes `5 × 3 = 15`, not `7 × 3 = 21`, refuting the claim as
stated. -/
theorem C3_counterexample :
    ((updateSale stC3 "S" chC3 9).sales.find? (fun x => x.id = "S")).map
        Sale.total = some 15 ∧
    ((updateSale stC3 "S" chC3 9).sales.find? (fun x => x.id = "S")).map
        Sale.unitPrice = some (some 5) ∧
    itemC3.pricePerUnit = some 7 ∧ chC3.unitPrice = none ∧
    ¬ (15 : ℚ) = 7 * 3 := by
  obtain ⟨h1, h2⟩ :=
    updateSale_omitted_price stC3 "S" chC3 9 saleC3 itemC3 (by decide)
      (by decide) (by decide) (by decide) stC3_norej
  refine ⟨?_, ?_, by decide, by decide, by norm_num⟩
  · rw [h1]
    have e4 : (salePrice itemC3.trackBy saleC3).getD itemC3.priceOf = 5 := by decide
    have e5 : clampNonNeg (orZero (saleQty itemC3.trackBy (mergeSale saleC3 chC3))) = 3 := by
      decide
    rw [e4, e5]
    norm_num
  · exact h2.trans (by decide)

/-- C3 amended: when `changes` omit the price field for the Sale's mode,
the resolved price used for `total` is the merged Sale's price — the
Sale's previously snapshotted price when present — and the Item's
current catalog price is used only when the Sale has no finite snapshot
for that mode; the Sale's stored price field keeps the old snapshot. -/
theorem C3_amended_price_resolution (s : AppState) (saleId : String)
    (c : SaleChanges) (now : Nat) (old : Sale) (it : Item)
    (hold : s.sales.find? (fun x => x.id = saleId) = some old)
    (hit : itemLookup s.items old.itemId = some it)
    (hcid : c.id = none)
    (homit : (match it.trackBy with
              | .unit => c.unitPrice
              | .kg => c.kgPrice) = none)
    (hnorej : ¬ (0 < clampNonNeg (orZero (saleQty it.trackBy (mergeSale old c)))
                  - clampNonNeg (orZero (saleQty it.trackBy old)) ∧
                it.stockOf < clampNonNeg (orZero (saleQty it.trackBy (mergeSale old c)))
                  - clampNonNeg (orZero (saleQty it.trackBy old)))) :
    ((updateSale s saleId c now).sales.find? (fun x => x.id = saleId)).map
        Sale.total
      = some ((salePrice it.trackBy old).getD it.priceOf
          * clampNonNeg (orZero (saleQty it.trackBy (mergeSale old c)))) ∧
    ((updateSale s saleId c now).sales.find? (fun x => x.id = saleId)).map
        (salePrice it.trackBy)
      = some (salePrice it.trackBy old) :=
  updateSale_omitted_price s saleId c now old it hold hit hcid homit hnorej

/-- Changes touching nothing: every key absent. -/
def chAm : SaleChanges := {}

theorem C3_amended_price_resolution_witness :
    (chAm.unitPrice = none ∧ saleC3.unitPrice = some 5) ∧
    (((updateSale stC3 "S" chAm 9).sales.find?
        (fun x => x.id = "S")).map Sale.total
      = some ((salePrice itemC3.trackBy saleC3).getD itemC3.priceOf
          * clampNonNeg (orZero (saleQty itemC3.trackBy (mergeSale saleC3 chAm)))) ∧
     ((updateSale stC3 "S" chAm 9).sales.find?
        (fun x => x.id = "S")).map (salePrice itemC3.trackBy)
      = some (salePrice itemC3.trackBy saleC3)) := by
  have hnorej : ¬ (0 < clampNonNeg (orZero (saleQty itemC3.trackBy (mergeSale saleC3 chAm)))
        - clampNonNeg (orZero (saleQty itemC3.trackBy saleC3)) ∧
      itemC3.stockOf < clampNonNeg (orZero (saleQty itemC3.trackBy (mergeSale saleC3 chAm)))
        - clampNonNeg (orZero (saleQty itemC3.trackBy saleC3))) := by
    have e1 : clampNonNeg (orZero (saleQty itemC3.trackBy (mergeSale saleC3 chAm)))
        = clampNonNeg (orZero (saleQty itemC3.trackBy saleC3)) := by decide
    rw [e1, sub_self]
    rintro ⟨h1, -⟩
    exact lt_irrefl 0 h1
  exact ⟨⟨by decide, by decide⟩,
    C3_amended_price_resolution stC3 "S" chAm 9 saleC3 itemC3 (by decide)
      (by decide) (by decide) (by decide) hnorej⟩

/-- C6: a successful `addSale` followed immediately by `deleteSale` on the
Sale it produced restores the Item's stock in the matching mode to exactly
its pre-sale value and removes the Sale, restoring the Sales collection
(round-trip).  The generated id must be fresh among existing Sales. -/
theorem C6_sale_delete_roundtrip (s : AppState) (p : SalePayload)
    (nid : String) (now now2 : Nat) (it : Item)
    (hit : itemLookup s.items p.itemId = some it)
    (hq : 0 < clampNonNeg (orZero (payloadQty it.trackBy p)))
    (hstock : clampNonNeg (orZero (payloadQty it.trackBy p)) ≤ it.stockOf)
    (hfresh : ∀ sl ∈ s.sales, sl.id ≠ nid) :
    (deleteSale (addSale s p nid now) nid now2).sales = s.sales ∧
    (itemLookup (deleteSale (addSale s p nid now) nid now2).items p.itemId).map
      Item.stockOf = some it.stockOf := by
  have hid := itemLookup_eq_id hit
  obtain ⟨sale, hsales, hsid, hsitem, hqty, -, -, -, hitems⟩ :=
    addSale_success_spec s p nid now it hit hq hstock
  have hrest : s.sales.filter (fun x => x.id ≠ nid) = s.sales :=
    List.filter_eq_self.mpr (fun a ha => by simpa using hfresh a ha)
  cases htb : it.trackBy with
  | unit =>
    have hq' : 0 < clampNonNeg (orZero p.qtyUnits) := by
      rw [htb] at hq; simpa [payloadQty] using hq
    have hs' : clampNonNeg (orZero p.qtyUnits) ≤ orZero it.stockUnits := by
      simpa [payloadQty, Item.stockOf, htb] using hstock
    have hqty' : sale.qtyUnits = some (clampNonNeg (orZero p.qtyUnits)) := by
      rw [htb] at hqty; simpa [saleQty, payloadQty] using hqty
    have hitems' : (addSale s p nid now).items
        = adjustStock s.items p.itemId
            (some (-(clampNonNeg (orZero p.qtyUnits)))) (some 0) now := by
      rw [htb] at hitems; simpa [payloadQty] using hitems
    have estock : clampNonNeg (orZero it.stockUnits
          + orZero (some (-(clampNonNeg (orZero p.qtyUnits)))))
        = orZero it.stockUnits - clampNonNeg (orZero p.qtyUnits) := by
      have e2 : orZero it.stockUnits + orZero (some (-(clampNonNeg (orZero p.qtyUnits))))
          = orZero it.stockUnits - clampNonNeg (orZero p.qtyUnits) := by
        unfold orZero
        simp [sub_eq_add_neg]
      rw [e2, clampNonNeg_of_nonneg (by linarith)]
    have hit1 := adjustStock_lookup
      (some (-(clampNonNeg (orZero p.qtyUnits)))) (some 0) now hit
    rw [htb] at hit1
    dsimp only at hit1
    rw [estock] at hit1
    constructor
    · unfold deleteSale
      rw [hsales]
      rw [List.find?_cons_of_pos _ (by simp [hsid])]
      dsimp only
      rw [List.filter_cons_of_neg (by simp [hsid])]
      exact hrest
    · unfold deleteSale
      rw [hsales]
      rw [List.find?_cons_of_pos _ (by simp [hsid])]
      dsimp only
      rw [hsitem, hitems', hit1]
      dsimp only
      split
      next =>
        rw [hqty', hid]
        have hit2 := adjustStock_lookup
          (some (clampNonNeg (orZero p.qtyUnits))) (some 0) now2 hit1
        dsimp only at hit2
        rw [orZero_some, orZero_some] at hit2
        have efin : clampNonNeg (orZero it.stockUnits - clampNonNeg (orZero p.qtyUnits)
              + clampNonNeg (orZero p.qtyUnits))
            = orZero it.stockUnits := by
          rw [sub_add_cancel, clampNonNeg_of_nonneg (by linarith)]
        rw [efin] at hit2
        rw [hit2]
        dsimp only [Option.map_some']
        unfold Item.stockOf
        dsimp only
        rw [htb]
        dsimp only
        rw [orZero_some]
      next hcond =>
        exact absurd ⟨rfl, by rw [hqty']; simp [truthy]; exact ne_of_gt hq'⟩ hcond
  | kg =>
    have hq' : 0 < clampNonNeg (orZero p.qtyKg) := by
      rw [htb] at hq; simpa [payloadQty] using hq
    have hs' : clampNonNeg (orZero p.qtyKg) ≤ orZero it.stockKg := by
      simpa [payloadQty, Item.stockOf, htb] using hstock
    have hqty' : sale.qtyKg = some (clampNonNeg (orZero p.qtyKg)) := by
      rw [htb] at hqty; simpa [saleQty, payloadQty] using hqty
    have hitems' : (addSale s p nid now).items
        = adjustStock s.items p.itemId
            (some 0) (some (-(clampNonNeg (orZero p.qtyKg)))) now := by
      rw [htb] at hitems; simpa [payloadQty] using hitems
    have estock : clampNonNeg (orZero it.stockKg
          + orZero (some (-(clampNonNeg (orZero p.qtyKg)))))
        = orZero it.stockKg - clampNonNeg (orZero p.qtyKg) := by
      have e2 : orZero it.stockKg + orZero (some (-(clampNonNeg (orZero p.qtyKg))))
          = orZero it.stockKg - clampNonNeg (orZero p.qtyKg) := by
        unfold orZero
        simp [sub_eq_add_neg]
      rw [e2, clampNonNeg_of_nonneg (by linarith)]
    have hit1 := adjustStock_lookup
      (some 0) (some (-(clampNonNeg (orZero p.qtyKg)))) now hit
    rw [htb] at hit1
    dsimp only at hit1
    rw [estock] at hit1
    constructor
    · unfold deleteSale
      rw [hsales]
      rw [List.find?_cons_of_pos _ (by simp [hsid])]
      dsimp only
      rw [List.filter_cons_of_neg (by simp [hsid])]
      exact hrest
    · unfold deleteSale
      rw [hsales]
      rw [List.find?_cons_of_pos _ (by simp [hsid])]
      dsimp only
      rw [hsitem, hitems', hit1]
      dsimp only
      split
      next hcond =>
        obtain ⟨h1, -⟩ := hcond
        exact absurd h1 (by intro h2; exact TrackBy.noConfusion h2)
      next =>
        split
        next =>
          rw [hqty', hid]
          have hit2 := adjustStock_lookup
            (some 0) (some (clampNonNeg (orZero p.qtyKg))) now2 hit1
          dsimp only at hit2
          rw [orZero_some, orZero_some] at hit2
          have efin : clampNonNeg (orZero it.stockKg - clampNonNeg (orZero p.qtyKg)
                + clampNonNeg (orZero p.qtyKg))
              = orZero it.stockKg := by
            rw [sub_add_cancel, clampNonNeg_of_nonneg (by linarith)]
          rw [efin] at hit2
          rw [hit2]
          dsimp only [Option.map_some']
          unfold Item.stockOf
          dsimp only
          rw [htb]
          dsimp only
          rw [orZero_some]
        next hcond =>
          exact absurd ⟨rfl, by rw [hqty']; simp [truthy]; exact ne_of_gt hq'⟩ hcond

theorem C6_sale_delete_roundtrip_witness :
    (0 < clampNonNeg (orZero (payloadQty itemU.trackBy pay3)) ∧
     clampNonNeg (orZero (payloadQty itemU.trackBy pay3)) ≤ itemU.stockOf ∧
     (∀ sl ∈ stU.sales, sl.id ≠ "S1")) ∧
    ((deleteSale (addSale stU pay3 "S1" 7) "S1" 8).sales = stU.sales ∧
     (itemLookup (deleteSale (addSale stU pay3 "S1" 7) "S1" 8).items
        pay3.itemId).map Item.stockOf = some itemU.stockOf) :=
  ⟨⟨by decide, by decide, by decide⟩,
    C6_sale_delete_roundtrip stU pay3 "S1" 7 8 itemU (by decide) (by decide)
      (by decide) (by decide)⟩

/-- Per-entry non-negativity of the aggregate `Stats`. -/
def NonnegStats (st : Stats) : Prop :=
  0 ≤ st.soldUnits ∧ 0 ≤ st.soldKg ∧ 0 ≤ st.revenue

lemma statsBase_eq (its : List Item) (m : String → Option Stats) (k : String) :
    (its.foldl (fun m2 it => msetF m2 it.id ⟨0, 0, 0⟩) m) k
      = if (its.any fun i => i.id = k) = true then some ⟨0, 0, 0⟩ else m k := by
  induction its generalizing m with
  | nil => simp
  | cons a rest ih =>
    rw [List.foldl_cons, ih]
    by_cases hk : a.id = k
    · by_cases hr : (rest.any fun i => i.id = k) = true
      · simp [List.any_cons, hk, hr]
      · simp [List.any_cons, hk, hr, msetF]
    · by_cases hr : (rest.any fun i => i.id = k) = true
      · simp [List.any_cons, hk, hr]
      · simp [List.any_cons, hk, hr, msetF]
        intro h
        exact absurd h.symm hk

lemma stats_fold_nonneg (sales : List Sale) (m : String → Option Stats)
    (hm : ∀ k st, m k = some st → NonnegStats st) :
    ∀ k st, (sales.foldl statsStep m) k = some st → NonnegStats st := by
  induction sales generalizing m with
  | nil => exact hm
  | cons sl rest ih =>
    rw [List.foldl_cons]
    apply ih
    intro k st hk
    unfold statsStep at hk
    cases hms : m sl.itemId with
    | none =>
      rw [hms] at hk
      dsimp only at hk
      exact hm k st hk
    | some st0 =>
      rw [hms] at hk
      dsimp only at hk
      unfold msetF at hk
      by_cases hkk : k = sl.itemId
      · rw [if_pos hkk] at hk
        injection hk with hk2
        obtain ⟨h1, h2, h3⟩ := hm sl.itemId st0 hms
        rw [← hk2]
        exact ⟨add_nonneg h1 (clampNonNeg_nonneg _),
               add_nonneg h2 (clampNonNeg_nonneg _),
               add_nonneg h3 (clampNonNeg_nonneg _)⟩
      · rw [if_neg hkk] at hk
        exact hm k st hk

lemma stats_fold_filter (items : List Item) (sales : List Sale)
    (m : String → Option Stats)
    (hm : ∀ k, (items.any fun i => i.id = k) = false → m k = none) :
    (sales.filter fun sl => items.any fun i => i.id = sl.itemId).foldl statsStep m
      = sales.foldl statsStep m := by
  induction sales generalizing m with
  | nil => rfl
  | cons sl rest ih =>
    by_cases hsl : (items.any fun i => i.id = sl.itemId) = true
    · rw [List.filter_cons_of_pos (by simpa using hsl), List.foldl_cons,
        List.foldl_cons]
      apply ih
      intro k hk
      unfold statsStep
      cases hms : m sl.itemId with
      | none => exact hm k hk
      | some st0 =>
        unfold msetF
        dsimp only
        have hne : ¬ k = sl.itemId := by
          intro he
          rw [he] at hk
          rw [hk] at hsl
          exact Bool.noConfusion hsl
        rw [if_neg hne]
        exact hm k hk
    · have hsl2 : (items.any fun i => i.id = sl.itemId) = false := by
        simpa using hsl
      rw [List.filter_cons_of_neg (by simp [hsl2]), List.foldl_cons]
      have hstep : statsStep m sl = m := by
        unfold statsStep
        rw [hm sl.itemId hsl2]
      rw [hstep]
      exact ih m hm

/-- C7: `statsByItem` skips Sales whose `itemId` has no matching Item
(filtering them out changes nothing), clamps each Sale's quantities and
total to `≥ 0` before summing so per-Item aggregates are never negative,
and over an empty Sales collection yields zero aggregates for every
Item. -/
theorem C7_stats_properties (items : List Item) (sales : List Sale) :
    statsByItem items (sales.filter fun sl => items.any fun i => i.id = sl.itemId)
      = statsByItem items sales ∧
    (∀ k st, statsByItem items sales k = some st →
      0 ≤ st.soldUnits ∧ 0 ≤ st.soldKg ∧ 0 ≤ st.revenue) ∧
    (∀ k, (items.any fun i => i.id = k) = true →
      statsByItem items [] k = some ⟨0, 0, 0⟩) := by
  have hb : ∀ k2 st2, statsBase items k2 = some st2 → NonnegStats st2 := by
    intro k2 st2 h2
    unfold statsBase at h2
    rw [statsBase_eq] at h2
    by_cases hany : (items.any fun i => i.id = k2) = true
    · rw [if_pos hany] at h2
      injection h2 with h3
      rw [← h3]
      exact ⟨le_refl 0, le_refl 0, le_refl 0⟩
    · rw [if_neg hany] at h2
      cases h2
  refine ⟨?_, ?_, ?_⟩
  · unfold statsByItem
    apply stats_fold_filter
    intro k hk
    unfold statsBase
    rw [statsBase_eq, if_neg (by simp [hk])]
  · intro k st h
    unfold statsByItem at h
    exact stats_fold_nonneg sales (statsBase items) hb k st h
  · intro k hk
    unfold statsByItem
    rw [List.foldl_nil]
    unfold statsBase
    rw [statsBase_eq, if_pos hk]

/-- A Sale referencing no existing Item. -/
def orphanSale : Sale :=
  { id := "X", itemId := "ZZZ", qtyUnits := some 1, qtyKg := none,
    unitPrice := some 10, kgPrice := none, total := 10, note := none,
    photoDataUrl := none, timestamp := 0 }

theorem C7_stats_properties_witness :
    ([itemU].any fun i => i.id = "A") = true ∧
    statsByItem [itemU]
        ([orphanSale].filter fun sl => [itemU].any fun i => i.id = sl.itemId)
      = statsByItem [itemU] [orphanSale] ∧
    statsByItem [itemU] [] "A" = some ⟨0, 0, 0⟩ :=
  ⟨by decide, (C7_stats_properties [itemU] [orphanSale]).1,
   (C7_stats_properties [itemU] [orphanSale]).2.2 "A" (by decide)⟩

/-- C8: importing a payload whose `items` or `sales` field is not an
array leaves the prior state unchanged (the whole import is rejected);
when both are arrays, import replaces both collections wholesale. -/
theorem C8_import_validation (s : AppState) (p : ImportPayload) :
    ((p.items = none ∨ p.sales = none) → importJson s p = s) ∧
    (∀ its sls, p.items = some its → p.sales = some sls →
      importJson s p = { items := its, sales := sls }) := by
  constructor
  · intro h
    unfold importJson
    cases hpi : p.items with
    | none => rfl
    | some its =>
      cases hps : p.sales with
      | none => rfl
      | some sls =>
        rcases h with h | h
        · rw [hpi] at h
          cases h
        · rw [hps] at h
          cases h
  · intro its sls h1 h2
    unfold importJson
    rw [h1, h2]

def pBad : ImportPayload := { items := none, sales := some [] }

def pGood : ImportPayload := { items := some [itemU], sales := some [] }

theorem C8_import_validation_witness :
    (pBad.items = none ∨ pBad.sales = none) ∧
    importJson stU pBad = stU ∧
    importJson stU pGood = { items := [itemU], sales := [] } :=
  ⟨Or.inl rfl, (C8_import_validation stU pBad).1 (Or.inl rfl),
   (C8_import_validation stU pGood).2 [itemU] [] rfl rfl⟩

/-- A partial Item update writing a negative stock. -/
def patchC9 : ItemPatch := { id := some "A", stockUnits := some (some (-3)) }

/-- C9: `upsertItem` with an id merges the supplied fields verbatim with
no clamping — only `updatedAt` is refreshed — so a negative supplied
`stockUnits` lands in the Item unchanged and the resulting state violates
the stock non-negativity invariant of §8: item updates do not preserve
it. -/
theorem C9_item_update_unclamped :
    StockOk stU.items ∧
    (upsertItem stU patchC9 "unused" 9).items
      = [{ itemU with stockUnits := some (-3), updatedAt := 9 }] ∧
    ¬ StockOk (upsertItem stU patchC9 "unused" 9).items :=
  ⟨by decide, by decide, by decide⟩

end Ledger
